import Mathlib

/-!
Verification of the oscen/swell sound-synthesis engine.

The source is embedded shallowly over `ℚ`: the Rust code computes with
`f64`/`f32` floating-point numbers, which we model by exact rational
arithmetic (every constant appearing in the code and in the claims is a
short decimal, so the arithmetic identities at stake are about the exact
formulas, not about rounding).  The floating-point remainder operator `%`
of Rust (which truncates the quotient toward zero) is modelled by `qfmod`
below.  The library sine is kept abstract as a function parameter
(`sinTau`), standing for `x ↦ sin (2·π·x)`; no claim depends on its values.
Fallible operations (Rust indexing, which panics out of bounds) are
modelled with `Option`.
-/

namespace Oscen

/-- Truncation of a rational toward zero, as the quotient underlying
Rust's `%` on floats is truncated. -/
def qtrunc (q : ℚ) : ℤ := if 0 ≤ q then ⌊q⌋ else -⌊-q⌋

/-- Rust's `%` on `f64` (fmod): `x % y = x - y * trunc (x / y)`. -/
def qfmod (x y : ℚ) : ℚ := x - y * (qtrunc (x / y) : ℚ)

/-!  `WaveParams` and its phase update, from `src/lib.rs` lines 29–51:
`phase += hz / sample_rate; phase %= sample_rate`.  -/
/-- State of a basic oscillator (`pub_struct! WaveParams` in `src/lib.rs`). -/
structure WaveParams where
  hz : ℚ
  amplitude : ℚ
  phase : ℚ

/-- `WaveParams::update_phase` (`src/lib.rs:47-50`). -/
def WaveParams.updatePhase (w : WaveParams) (sampleRate : ℚ) : WaveParams :=
  { w with phase := qfmod (w.phase + w.hz / sampleRate) sampleRate }

/-!  The ADSR envelope, from `src/lib.rs` lines 240–293.  -/
/-- State of `ADSRWave` (`src/lib.rs:240-249`). -/
structure ADSRWave where
  attack : ℚ
  decay : ℚ
  sustain_time : ℚ
  sustain_level : ℚ
  release : ℚ
  current_time : ℚ

/-- `ADSRWave::adsr` (`src/lib.rs:269-282`): the guarded `match` on `t`. -/
def ADSRWave.adsr (w : ADSRWave) (t : ℚ) : ℚ :=
  if t < w.attack then t / w.attack
  else if t < w.attack + w.decay then
    1 + (t - w.attack) * (w.sustain_level - 1) / w.decay
  else if t < w.attack + w.decay + w.sustain_time then w.sustain_level
  else if t < w.attack + w.decay + w.sustain_time + w.release then
    w.sustain_level -
      (t - w.attack - w.decay - w.sustain_time) * w.sustain_level / w.release
  else 0

/-- `Wave::sample` for `ADSRWave` (`src/lib.rs:286-288`). -/
def ADSRWave.sample (w : ADSRWave) : ℚ := w.adsr w.current_time

/-- `Wave::update_phase` for `ADSRWave` (`src/lib.rs:290-292`):
advance the clock by one sample period. -/
def ADSRWave.updatePhase (w : ADSRWave) (sampleRate : ℚ) : ADSRWave :=
  { w with current_time := w.current_time + 1 / sampleRate }

/-- The five-segment envelope exactly as the specification words it
(§4.3 of the spec), with explicit interval conditions. -/
def adsrSpec (a d s sl r t : ℚ) : ℚ :=
  if t < a then t / a
  else if a ≤ t ∧ t < a + d then 1 + (t - a) * (sl - 1) / d
  else if a + d ≤ t ∧ t < a + d + s then sl
  else if a + d + s ≤ t ∧ t < a + d + s + r then sl - (t - a - d - s) * sl / r
  else 0

/-- The concrete envelope of claim C4:
`attack=0.1, decay=0.1, sustain_time=0.2, sustain_level=0.5, release=0.1`. -/
def adsrC4 : ADSRWave :=
  { attack := 1/10, decay := 1/10, sustain_time := 1/5,
    sustain_level := 1/2, release := 1/10, current_time := 0 }

/-!  The signal graph of `examples/graph.rs`: the `Input` binding, the four
node types (`SineOscG`, `Osc01`, `SquareOscG`, `LerpG`), and `Graph::play`.
Node evaluation can panic (Rust indexing `self.0[n]`), modelled by
`Option`.  The trait-object `dyn SignalG` becomes the inductive `Module`;
a node's `signal` returns its sample together with its updated module
state (the `&mut self` effect). -/
/-- `enum Input` (`examples/graph.rs:36-39`). -/
inductive Input where
  | Variable : ℕ → Input
  | Constant : ℚ → Input
deriving DecidableEq

/-- Resolution of a binding against the cached outputs: `Input::Variable(n)`
reads `graph.output(n) = self.0[n].output` (panic out of bounds → `none`),
`Input::Constant(c)` is `c`. -/
def resolveInput (outs : List ℚ) : Input → Option ℚ
  | .Constant c => some c
  | .Variable n => outs.get? n

/-- The phase self-update common to the three oscillators of
`examples/graph.rs` (e.g. lines 117-124): when the phase binding is a
constant it becomes `(p + hz/sample_rate) % sample_rate`; a variable
binding is left alone. -/
def stepPhase (ph : Input) (hz sampleRate : ℚ) : Input :=
  match ph with
  | .Constant p => .Constant (qfmod (p + hz / sampleRate) sampleRate)
  | .Variable x => .Variable x

/-- The concrete `dyn SignalG` modules of `examples/graph.rs`. -/
inductive Module where
  | sineOscG (hz amplitude phase : Input)
  | osc01 (hz phase : Input)
  | squareOscG (hz amplitude phase : Input) (duty_cycle : ℚ)
  | lerpG (wave1 wave2 : ℕ) (alpha : Input)

/-- One `SignalG::signal` call (`examples/graph.rs:104-126`, `147-165`,
`194-223`, `247-253`): resolve the bindings against the graph's cached
outputs, update the phase, and produce the sample (computed from the phase
value read *before* the update, as the Rust code does).  `sinTau` stands
for the library function `x ↦ sin (TAU · x)`. -/
def Module.signal (sinTau : ℚ → ℚ) (m : Module) (outs : List ℚ)
    (sampleRate : ℚ) : Option (ℚ × Module) :=
  match m with
  | .sineOscG hz amp ph => do
      let hzv ← resolveInput outs hz
      let ampv ← resolveInput outs amp
      let phv ← resolveInput outs ph
      pure (ampv * sinTau phv, .sineOscG hz amp (stepPhase ph hzv sampleRate))
  | .osc01 hz ph => do
      let hzv ← resolveInput outs hz
      let phv ← resolveInput outs ph
      pure (1/2 * (sinTau phv + 1), .osc01 hz (stepPhase ph hzv sampleRate))
  | .squareOscG hz amp ph duty => do
      let hzv ← resolveInput outs hz
      let ampv ← resolveInput outs amp
      let phv ← resolveInput outs ph
      let t := phv - ⌊phv⌋
      let out := if t < 1/1000 then 0
                 else if t ≤ duty then ampv else -ampv
      pure (out, .squareOscG hz amp (stepPhase ph hzv sampleRate) duty)
  | .lerpG w1 w2 alpha => do
      let alphav ← resolveInput outs alpha
      let o1 ← outs.get? w1
      let o2 ← outs.get? w2
      pure (alphav * o1 + (1 - alphav) * o2, .lerpG w1 w2 alpha)

/-- `struct Node` (`examples/graph.rs:41-44`): a module plus its cached
output from the most recent evaluation. -/
structure GNode where
  module : Module
  output : ℚ

/-- `struct Graph(pub Vec<Node>)` (`examples/graph.rs:55`). -/
abbrev Graph := List GNode

/-- The first loop of `Graph::play` (`examples/graph.rs:71-74`): visit the
nodes in order, calling each module's `signal` against the fixed list
`outs0` of cached outputs, collecting the samples (and updated modules). -/
def evalNodes (sinTau : ℚ → ℚ) (outs0 : List ℚ) (sampleRate : ℚ) :
    List GNode → Option (List (ℚ × Module))
  | [] => some []
  | n :: rest => do
      let p ← Module.signal sinTau n.module outs0 sampleRate
      let ps ← evalNodes sinTau outs0 sampleRate rest
      pure (p :: ps)

/-- `Graph::play` (`examples/graph.rs:70-79`): evaluate every node against
the cached outputs, then write all results back, then return
`self.0[self.0.len() - 1].output` (panic on the empty graph → `none`). -/
def Graph.play (sinTau : ℚ → ℚ) (g : Graph) (sampleRate : ℚ) :
    Option (Graph × ℚ) := do
  let outs ← evalNodes sinTau (g.map GNode.output) sampleRate g
  let g' := List.zipWith (fun (_ : GNode) (p : ℚ × Module) =>
    GNode.mk p.2 p.1) g outs
  match g'.getLast? with
  | none => none
  | some last => pure (g', last.output)

/-- An `Input` binding only references in-range node indices. -/
def Input.validIn (len : ℕ) : Input → Prop
  | .Constant _ => True
  | .Variable n => n < len

/-- All of a module's bindings reference in-range node indices. -/
def Module.validIn (len : ℕ) : Module → Prop
  | .sineOscG hz amp ph => hz.validIn len ∧ amp.validIn len ∧ ph.validIn len
  | .osc01 hz ph => hz.validIn len ∧ ph.validIn len
  | .squareOscG hz amp ph _ =>
      hz.validIn len ∧ amp.validIn len ∧ ph.validIn len
  | .lerpG w1 w2 alpha => w1 < len ∧ w2 < len ∧ alpha.validIn len

/-- `LerpWave` (`src/lib.rs:120-125`): only the coefficient is state; the
two source waves are trait objects whose current samples are passed as
arguments below. -/
structure LerpWave where
  alpha : ℚ

/-- `Wave::sample` for `LerpWave` (`src/lib.rs:142-146`):
`(1 - alpha) * wave1.sample() + alpha * wave2.sample()`. -/
def LerpWave.sample (w : LerpWave) (a b : ℚ) : ℚ :=
  (1 - w.alpha) * a + w.alpha * b

/-- Two-node graph for claim C1: a square oscillator (which produces `1`
on this call) followed by a `LerpG` with `alpha = 1` referencing node `0`
twice, so the lerp node returns exactly the value it resolves node `0`
to. -/
def gC1 : Graph :=
  [ ⟨.squareOscG (.Constant 0) (.Constant 1) (.Constant (1/4)) (1/2), 0⟩,
    ⟨.lerpG 0 0 (.Constant 1), 0⟩ ]

/-- The square-oscillator module of `gC1`. -/
def sqC1 : Module :=
  .squareOscG (.Constant 0) (.Constant 1) (.Constant (1/4)) (1/2)

/-- The state of `gC1` after one `play` call: the square oscillator's new
cached output is `1` (its phase, `1/4 + 0/4 % 4`, is unchanged since
`hz = 0`), while the lerp node cached `0` — the value node `0` held
*before* the call. -/
def gC1' : Graph := [⟨sqC1, 1⟩, ⟨.lerpG 0 0 (.Constant 1), 0⟩]

/-- Non-empty graph whose single node references the out-of-range index
`1` (claim C10). -/
def gBad : Graph := [⟨.lerpG 1 1 (.Constant 0), 0⟩]

/-- Single-node graph with only constant bindings (witness for C10). -/
def gW : Graph :=
  [⟨.squareOscG (.Constant 0) (.Constant 1) (.Constant 0) (1/2), 0⟩]

/-!  The Freeverb reverberator, `src/reverb.rs`.  Its inner `Rack` of 8
comb filters, a mixer and 4 all-pass filters is built from `filters.rs` /
`operators.rs` / `signal.rs`, which are not among the sources; the comb
coefficients touched by `update_combs` are modelled from the spec, and the
inner rack's per-sample result enters `signal` as an argument. -/
/-- Scaling constants (`src/reverb.rs:7-10`). -/
def SCALE_WET : ℚ := 3

def SCALE_DAMPENING : ℚ := 2/5

def SCALE_ROOM : ℚ := 7/25

def OFFSET_ROOM : ℚ := 7/10

/-- Modelled from the spec: `Comb::set(rack, o, "feedback"/"damping", v)`
(defined in `filters.rs`, which is not among the sources) applied across
the rack, per §4.7 — "recomputes each comb filter's feedback/damping
coefficients (uniformly across all 8)".  The combs are their
(feedback, damping) pairs. -/
def setAllCombs (combs : List (ℚ × ℚ)) (feedback damping : ℚ) :
    List (ℚ × ℚ) :=
  combs.map (fun _ => (feedback, damping))

/-- The scalar state of `struct Freeverb` (`src/reverb.rs:26-38`), with the
inner rack represented by its combs' (feedback, damping) pairs. -/
structure Freeverb where
  wet_gain : ℚ
  wet : ℚ
  width : ℚ
  dry : ℚ
  input_gain : ℚ
  dampening : ℚ
  room_size : ℚ
  frozen : Bool
  combs : List (ℚ × ℚ)

/-- `Freeverb::new` (`src/reverb.rs:41-82`); the combs' initial
coefficients are assigned inside `Comb::new` (not among the sources), so
they are a parameter. -/
def Freeverb.new (combs0 : List (ℚ × ℚ)) : Freeverb :=
  { wet_gain := 1/2, wet := 1, dry := 0, input_gain := 1/2, width := 1/2,
    dampening := 1/2, room_size := 1/2, frozen := false, combs := combs0 }

/-- `Freeverb::update_wet_gains` (`src/reverb.rs:104-106`). -/
def Freeverb.update_wet_gains (f : Freeverb) : Freeverb :=
  { f with wet_gain := f.wet * (f.width / 2 + 1/2) }

/-- `Freeverb::set_wet` (`src/reverb.rs:94-97`): the stored `wet` is three
times the supplied value. -/
def Freeverb.set_wet (f : Freeverb) (value : ℚ) : Freeverb :=
  Freeverb.update_wet_gains { f with wet := value * SCALE_WET }

/-- `Freeverb::set_width` (`src/reverb.rs:99-102`). -/
def Freeverb.set_width (f : Freeverb) (value : ℚ) : Freeverb :=
  Freeverb.update_wet_gains { f with width := value }

/-- `Freeverb::set_dry` (`src/reverb.rs:132-134`). -/
def Freeverb.set_dry (f : Freeverb) (value : ℚ) : Freeverb :=
  { f with dry := value }

/-- `Freeverb::update_combs` (`src/reverb.rs:119-130`): frozen forces
(feedback, damping) = (1, 0), otherwise (room_size, dampening), applied to
every comb. -/
def Freeverb.update_combs (f : Freeverb) : Freeverb :=
  let p := if f.frozen then ((1 : ℚ), (0 : ℚ)) else (f.room_size, f.dampening)
  { f with combs := setAllCombs f.combs p.1 p.2 }

/-- `Freeverb::set_dampening` (`src/reverb.rs:84-87`). -/
def Freeverb.set_dampening (f : Freeverb) (value : ℚ) : Freeverb :=
  Freeverb.update_combs { f with dampening := value * SCALE_DAMPENING }

/-- `Freeverb::set_room_size` (`src/reverb.rs:114-117`). -/
def Freeverb.set_room_size (f : Freeverb) (value : ℚ) : Freeverb :=
  Freeverb.update_combs { f with room_size := value * SCALE_ROOM + OFFSET_ROOM }

/-- `Freeverb::set_freeze` (`src/reverb.rs:89-92`): sets the flag and
updates the combs — it does not touch `input_gain`. -/
def Freeverb.set_freeze (f : Freeverb) (fr : Bool) : Freeverb :=
  Freeverb.update_combs { f with frozen := fr }

/-- `Freeverb::set_frozen` (`src/reverb.rs:108-112`): sets the flag, sets
`input_gain` to 0 when freezing (1 when unfreezing) and updates the
combs. -/
def Freeverb.set_frozen (f : Freeverb) (fr : Bool) : Freeverb :=
  Freeverb.update_combs
    { f with frozen := fr, input_gain := if fr then 0 else 1 }

/-- `Signal::signal` for `Freeverb` (`src/reverb.rs:139-144`):
`out * wet_gain + inp * dry`, where `out` is the inner rack's result for
this sample (`self.rack.signal(sample_rate)`, evaluated in code that is
not among the sources and therefore passed in as `rackOut`). -/
def Freeverb.signal (f : Freeverb) (inp rackOut : ℚ) : ℚ :=
  rackOut * f.wet_gain + inp * f.dry

/-- The freshly constructed reverberator used in claim C7's
counterexample (comb coefficients start at an arbitrary value). -/
def fvC7 : Freeverb := Freeverb.new (List.replicate 8 (0, 0))

/-!  The waveguide voice, `oscen-lib/src/instruments.rs`. -/
/-- The outer-rack-facing state of `WaveGuide`
(`oscen-lib/src/instruments.rs:10-23`): the tag of the excitation source,
the pitch binding, the inner `Link`'s value and the inner `Delay`'s delay
time.  The other inner nodes play no part in the claims. -/
structure WaveGuide where
  burst : ℕ
  hz : Input
  input_value : ℚ
  delay_time : ℚ

/-- `Signal::signal` for `WaveGuide` (`oscen-lib/src/instruments.rs:128-134`)
up to the inner rack evaluation: read the excitation `rack.output(burst)`
into the inner link, and set the inner delay's time to
`1.0 / f64::max(1.0, In::val(&rack, self.hz))`.  `In::val` (in
`signal.rs`, not among the sources) is modelled from the spec as binding
resolution against the outer rack's cached outputs (`resolveInput`);
out-of-range lookups are `none`. -/
def WaveGuide.signalStep (wg : WaveGuide) (rackOuts : List ℚ) :
    Option WaveGuide := do
  let inp ← rackOuts.get? wg.burst
  let hzv ← resolveInput rackOuts wg.hz
  pure { wg with input_value := inp, delay_time := 1 / max 1 hzv }

/-- Concrete waveguide voice for the C8 witness. -/
def wgW : WaveGuide := { burst := 0, hz := .Constant 440, input_value := 0,
                         delay_time := 0 }

/-- `wgW` after one evaluation step against the outer-rack outputs `[2]`. -/
def wgW' : WaveGuide := { burst := 0, hz := .Constant 440, input_value := 2,
                          delay_time := 1 / 440 }

/-!  The MIDI drains of `src/main.rs` and `src/bin/sv1.rs`.  -/
/-- A command the `main.rs` drain sends to the audio stream. -/
inductive MainCmd where
  | noteOn (hz : ℚ)
  | noteOff
deriving DecidableEq

/-- The model-side state touched by the `main.rs` MIDI drain. -/
structure MainState where
  hz : ℚ
  cmds : List MainCmd
deriving DecidableEq

/-- The per-message body of the MIDI drain in `update` of `src/main.rs`
(lines 162-187): `let step = message[1];` runs *before* the
`message.len() == 3` check (a message of fewer than 2 bytes panics →
`none`), `model.hz` is assigned unconditionally, and a note-on / note-off
command is sent only for 3-byte messages with status 144 / 128.
`hzFromStep` stands for the external `pitch_calc::hz_from_step`. -/
def mainProcessMessage (hzFromStep : ℕ → ℚ) (st : MainState)
    (msg : List ℕ) : Option MainState := do
  let step ← msg.get? 1
  let hz := hzFromStep step
  let st1 : MainState := { st with hz := hz }
  if msg.length = 3 then
    if msg.getD 0 0 = 144 then
      pure { st1 with cmds := st1.cmds ++ [.noteOn hz] }
    else if msg.getD 0 0 = 128 then
      pure { st1 with cmds := st1.cmds ++ [.noteOff] }
    else pure st1
  else pure st1

/-- A MIDI control binding of `sv1.rs`: a controller number and its last
raw value. -/
structure Sv1Control where
  controller : ℕ
  value : ℕ
deriving DecidableEq

/-- The synthesizer state touched by the `sv1.rs` MIDI drain.  Modelled
from the spec: `set_step`, `on`, `off` and `set_value` (defined in library
modules not among the sources) store the step, open/close the envelope
gate, and record a controller's raw value. -/
structure Sv1State where
  midi_step : ℕ
  adsr_gate : Bool
  controls : List Sv1Control
deriving DecidableEq

/-- The per-message body of the MIDI drain in `audio` of `src/bin/sv1.rs`
(lines 230-253): a message is inspected only when its length is exactly 3;
status 144 stores the step and opens the gate, 128 closes the gate, 176
updates every control whose controller number matches `message[1]`. -/
def sv1ProcessMessage (st : Sv1State) (msg : List ℕ) : Sv1State :=
  if msg.length = 3 then
    let status := msg.getD 0 0
    let d1 := msg.getD 1 0
    let d2 := msg.getD 2 0
    if status = 144 then { st with midi_step := d1, adsr_gate := true }
    else if status = 128 then { st with adsr_gate := false }
    else if status = 176 then
      { st with controls := st.controls.map (fun c =>
          if c.controller = d1 then { c with value := d2 } else c) }
    else st
  else st

/-- When the dividend already lies in `[0, y)`, `fmod` leaves it unchanged. -/
theorem qfmod_eq_self (x y : ℚ) (h0 : 0 ≤ x) (h1 : x < y) : qfmod x y = x := by
  have hy : 0 < y := lt_of_le_of_lt h0 h1
  have hdiv0 : 0 ≤ x / y := div_nonneg h0 hy.le
  have hdiv1 : x / y < 1 := (div_lt_one hy).mpr h1
  have : qtrunc (x / y) = 0 := by
    unfold qtrunc
    rw [if_pos hdiv0]
    exact Int.floor_eq_zero_iff.mpr ⟨hdiv0, hdiv1⟩
  simp [qfmod, this]

/-- C2: for an oscillator with constant frequency `hz` at a fixed positive
`sample_rate`, `WaveParams::update_phase` adds exactly `hz/sample_rate` to
the phase accumulator and then wraps the result modulo `sample_rate`
(truncated float remainder), not modulo 1: the result differs from the
pre-wrap sum by an integer multiple of `sample_rate`, and whenever the sum
already lies in `[0, sample_rate)` no wrap occurs at all — in particular a
sum of `3/2` at `sample_rate = 2` is kept as `3/2`, which reduction
modulo 1 would have sent to `1/2`.  `hz` and `amplitude` are untouched. -/
theorem updatePhase_adds_and_wraps_mod_sampleRate
    (w : WaveParams) (sr : ℚ) (hsr : 0 < sr) :
    (w.updatePhase sr).phase = qfmod (w.phase + w.hz / sr) sr ∧
    (∃ k : ℤ, (w.updatePhase sr).phase = w.phase + w.hz / sr - k * sr) ∧
    (0 ≤ w.phase + w.hz / sr → w.phase + w.hz / sr < sr →
      (w.updatePhase sr).phase = w.phase + w.hz / sr) ∧
    (w.updatePhase sr).hz = w.hz ∧
    (w.updatePhase sr).amplitude = w.amplitude := by
  refine ⟨rfl, ⟨qtrunc ((w.phase + w.hz / sr) / sr), ?_⟩, ?_, rfl, rfl⟩
  · simp [WaveParams.updatePhase, qfmod]; ring
  · intro h0 h1
    simp [WaveParams.updatePhase, qfmod_eq_self _ _ h0 h1]

theorem updatePhase_adds_and_wraps_mod_sampleRate_witness :
    ((0:ℚ) < 2) ∧
    (({ hz := 6/5, amplitude := 1, phase := 9/10 : WaveParams }.updatePhase
        2).phase = 3/2) := by
  have h := updatePhase_adds_and_wraps_mod_sampleRate
    { hz := 6/5, amplitude := 1, phase := 9/10 } 2 (by norm_num)
  refine ⟨by norm_num, ?_⟩
  have h3 := h.2.2.1 (by norm_num) (by norm_num)
  rw [h3]; norm_num

/-- C3: for positive attack, decay, sustain-time, sustain-level and release
and any elapsed time `t ≥ 0`, the envelope generator's output
`ADSRWave::adsr` equals the five-segment piecewise function of the
specification, with the interval conditions stated explicitly. -/
theorem adsr_eq_five_segment_spec (w : ADSRWave) (t : ℚ)
    (ha : 0 < w.attack) (hd : 0 < w.decay) (hs : 0 < w.sustain_time)
    (hsl : 0 < w.sustain_level) (hr : 0 < w.release) (ht : 0 ≤ t) :
    w.adsr t =
      adsrSpec w.attack w.decay w.sustain_time w.sustain_level w.release t := by
  unfold ADSRWave.adsr adsrSpec
  by_cases h1 : t < w.attack
  · simp [h1]
  · by_cases h2 : t < w.attack + w.decay
    · simp [h1, h2, le_of_not_lt h1]
    · by_cases h3 : t < w.attack + w.decay + w.sustain_time
      · simp [h1, h2, h3, le_of_not_lt h2]
      · by_cases h4 : t < w.attack + w.decay + w.sustain_time + w.release
        · simp [h1, h2, h3, h4, le_of_not_lt h3]
        · simp [h1, h2, h3, h4]

theorem adsr_eq_five_segment_spec_witness :
    ((0:ℚ) < 1/10 ∧ (0:ℚ) < 1/10 ∧ (0:ℚ) < 1/5 ∧ (0:ℚ) < 1/2 ∧
      (0:ℚ) < 1/10 ∧ (0:ℚ) ≤ 9/20) ∧
    ({ attack := 1/10, decay := 1/10, sustain_time := 1/5,
       sustain_level := 1/2, release := 1/10,
       current_time := 0 : ADSRWave }.adsr (9/20) =
      adsrSpec (1/10) (1/10) (1/5) (1/2) (1/10) (9/20)) := by
  refine ⟨by norm_num, ?_⟩
  exact adsr_eq_five_segment_spec
    { attack := 1/10, decay := 1/10, sustain_time := 1/5,
      sustain_level := 1/2, release := 1/10, current_time := 0 }
    (9/20) (by norm_num) (by norm_num) (by norm_num) (by norm_num)
    (by norm_num) (by norm_num)

/-- C4 counterexample: with the claim's parameters, `adsr(0.45)` is not `0`
(the release segment ends at `a+d+s+r = 0.5`, and `t = 0.45` is still in
the middle of it). -/
theorem adsr_at_045_ne_zero : ¬ (adsrC4.adsr (9/20) = 0) := by
  norm_num [adsrC4, ADSRWave.adsr]

/-- C4 amended: with the claim's parameters, `adsr(0.05) = 0.5`,
`adsr(0.15)` is strictly between `0.5` and `1`, `adsr(0.3) = 0.5`,
`adsr(0.45) = 0.25` (still mid-release, since the release segment ends at
`a+d+s+r = 0.5`), and `adsr(0.5) = 0` exactly (fully released at that
boundary). -/
theorem adsr_segment_boundaries_amended :
    adsrC4.adsr (1/20) = 1/2 ∧
    (1/2 < adsrC4.adsr (3/20) ∧ adsrC4.adsr (3/20) < 1) ∧
    adsrC4.adsr (3/10) = 1/2 ∧
    adsrC4.adsr (9/20) = 1/4 ∧
    adsrC4.adsr (1/2) = 0 := by
  norm_num [adsrC4, ADSRWave.adsr]

theorem evalNodes_length (sinTau : ℚ → ℚ) (outs0 : List ℚ) (sr : ℚ) :
    ∀ (l : List GNode) (outs : List (ℚ × Module)),
      evalNodes sinTau outs0 sr l = some outs → outs.length = l.length := by
  intro l
  induction l with
  | nil =>
      intro outs h
      simp [evalNodes] at h
      simp [← h]
  | cons n rest ih =>
      intro outs h
      rw [evalNodes] at h
      cases hsig : Module.signal sinTau n.module outs0 sr with
      | none => rw [hsig] at h; simp at h
      | some p =>
          rw [hsig] at h
          cases hrest : evalNodes sinTau outs0 sr rest with
          | none => rw [hrest] at h; simp at h
          | some ps =>
              rw [hrest] at h
              simp at h
              subst h
              simp [ih ps hrest]

theorem evalNodes_get (sinTau : ℚ → ℚ) (outs0 : List ℚ) (sr : ℚ) :
    ∀ (l : List GNode) (outs : List (ℚ × Module)),
      evalNodes sinTau outs0 sr l = some outs →
      ∀ (i : ℕ) (h1 : i < l.length) (h2 : i < outs.length),
        Module.signal sinTau (l.get ⟨i, h1⟩).module outs0 sr
          = some (outs.get ⟨i, h2⟩) := by
  intro l
  induction l with
  | nil => intro outs _ i h1; exact absurd h1 (by simp)
  | cons n rest ih =>
      intro outs h i h1 h2
      rw [evalNodes] at h
      cases hsig : Module.signal sinTau n.module outs0 sr with
      | none => rw [hsig] at h; simp at h
      | some p =>
          rw [hsig] at h
          cases hrest : evalNodes sinTau outs0 sr rest with
          | none => rw [hrest] at h; simp at h
          | some ps =>
              rw [hrest] at h
              simp at h
              subst h
              cases i with
              | zero => simpa using hsig
              | succ j =>
                  have h1' : j < rest.length := by simpa using h1
                  have h2' : j < ps.length := by simpa using h2
                  simpa using ih ps hrest j h1' h2'

theorem resolveInput_isSome (outs : List ℚ) (i : Input)
    (h : i.validIn outs.length) : (resolveInput outs i).isSome := by
  cases i with
  | Constant c => simp [resolveInput]
  | Variable n =>
      simp only [Input.validIn] at h
      simp [resolveInput, List.getElem?_eq_getElem h]

theorem signal_isSome (sinTau : ℚ → ℚ) (m : Module) (outs : List ℚ)
    (sr : ℚ) (h : m.validIn outs.length) :
    (Module.signal sinTau m outs sr).isSome := by
  cases m with
  | sineOscG hz amp ph =>
      obtain ⟨h1, h2, h3⟩ := h
      obtain ⟨v1, e1⟩ := Option.isSome_iff_exists.mp (resolveInput_isSome outs hz h1)
      obtain ⟨v2, e2⟩ := Option.isSome_iff_exists.mp (resolveInput_isSome outs amp h2)
      obtain ⟨v3, e3⟩ := Option.isSome_iff_exists.mp (resolveInput_isSome outs ph h3)
      simp [Module.signal, e1, e2, e3]
  | osc01 hz ph =>
      obtain ⟨h1, h2⟩ := h
      obtain ⟨v1, e1⟩ := Option.isSome_iff_exists.mp (resolveInput_isSome outs hz h1)
      obtain ⟨v2, e2⟩ := Option.isSome_iff_exists.mp (resolveInput_isSome outs ph h2)
      simp [Module.signal, e1, e2]
  | squareOscG hz amp ph duty =>
      obtain ⟨h1, h2, h3⟩ := h
      obtain ⟨v1, e1⟩ := Option.isSome_iff_exists.mp (resolveInput_isSome outs hz h1)
      obtain ⟨v2, e2⟩ := Option.isSome_iff_exists.mp (resolveInput_isSome outs amp h2)
      obtain ⟨v3, e3⟩ := Option.isSome_iff_exists.mp (resolveInput_isSome outs ph h3)
      simp [Module.signal, e1, e2, e3]
  | lerpG w1 w2 alpha =>
      obtain ⟨h1, h2, h3⟩ := h
      obtain ⟨v3, e3⟩ := Option.isSome_iff_exists.mp (resolveInput_isSome outs alpha h3)
      simp [Module.signal, e3, List.getElem?_eq_getElem h1,
        List.getElem?_eq_getElem h2]

theorem evalNodes_total (sinTau : ℚ → ℚ) (outs0 : List ℚ) (sr : ℚ) :
    ∀ (l : List GNode), (∀ n ∈ l, Module.validIn outs0.length n.module) →
      ∃ outs, evalNodes sinTau outs0 sr l = some outs := by
  intro l
  induction l with
  | nil => intro _; exact ⟨[], rfl⟩
  | cons n rest ih =>
      intro h
      obtain ⟨p, hp⟩ := Option.isSome_iff_exists.mp
        (signal_isSome sinTau n.module outs0 sr (h n (by simp)))
      obtain ⟨ps, hps⟩ := ih (fun x hx => h x (by simp [hx]))
      exact ⟨p :: ps, by simp [evalNodes, hp, hps]⟩

theorem floor_quarter : (⌊(1/4 : ℚ)⌋ : ℤ) = 0 := by
  rw [Int.floor_eq_zero_iff]; constructor <;> norm_num

theorem fract_quarter : Int.fract (1/4 : ℚ) = 1/4 := by
  unfold Int.fract
  rw [floor_quarter]
  norm_num

theorem qfmod_quarter : qfmod (1/4 : ℚ) 4 = 1/4 :=
  qfmod_eq_self _ _ (by norm_num) (by norm_num)

theorem gC1_play : Graph.play (fun _ => 0) gC1 4 = some (gC1', 0) := by
  simp only [Graph.play, evalNodes, Module.signal, resolveInput, stepPhase,
    gC1, gC1', sqC1, List.map, List.get?, Option.bind_eq_bind]
  norm_num [qfmod_quarter, fract_quarter]

/-- C1 counterexample: in the two-node graph `gC1` (a square oscillator
producing `1` on this call, then a `LerpG` with `alpha = 1` referencing
node `0`), node `0`'s same-call production is `1`, yet `Graph::play`
returns `0`: the lerp node resolved node `0` to its cached output from
*before* the call, because `play` writes all results back only after every
node has been evaluated — contradicting "each node's result is stored as
that node's new cached output before the next node is evaluated". -/
theorem play_same_call_resolution_counterexample :
    (Graph.play (fun _ => 0) gC1 4).map Prod.snd = some 0 ∧
    (Module.signal (fun _ => 0) sqC1 (gC1.map GNode.output) 4).map
      Prod.fst = some 1 ∧
    ((0 : ℚ) ≠ 1) := by
  refine ⟨by rw [gC1_play]; rfl, ?_, by norm_num⟩
  simp only [Module.signal, resolveInput, stepPhase, gC1, sqC1, List.map,
    Option.bind_eq_bind]
  norm_num [fract_quarter]

/-- C1 amended: `Graph::play` visits the nodes in construction order but
defers all cached-output writes until every node has been evaluated: each
node's new cached output (and updated module) is its module's production
evaluated against the *pre-call* cached outputs, so a node whose binding
references an earlier node resolves it to the value that node computed in
the *previous* call; the call returns the newly written cached output of
the last node in the sequence. -/
theorem play_evaluates_against_previous_outputs (sinTau : ℚ → ℚ)
    (g g' : Graph) (sr r : ℚ) (h : Graph.play sinTau g sr = some (g', r)) :
    g'.length = g.length ∧
    (∀ (i : ℕ) (h1 : i < g.length) (h2 : i < g'.length),
      Module.signal sinTau (g.get ⟨i, h1⟩).module (g.map GNode.output) sr
        = some ((g'.get ⟨i, h2⟩).output, (g'.get ⟨i, h2⟩).module)) ∧
    (∃ last, g'.getLast? = some last ∧ r = last.output) := by
  rw [Graph.play] at h
  cases he : evalNodes sinTau (g.map GNode.output) sr g with
  | none => rw [he] at h; simp at h
  | some outs =>
      rw [he] at h
      simp only [Option.bind_some, Option.some_bind, Option.bind_eq_bind] at h
      have hlen := evalNodes_length sinTau (g.map GNode.output) sr g outs he
      cases hl : (List.zipWith (fun (_ : GNode) (p : ℚ × Module) =>
          GNode.mk p.2 p.1) g outs).getLast? with
      | none => rw [hl] at h; simp at h
      | some last =>
          rw [hl] at h
          simp only [Option.pure_def, Option.some_inj] at h
          rw [Prod.ext_iff] at h
          obtain ⟨hg', hr⟩ := h
          dsimp only at hg' hr
          subst hg'
          refine ⟨?_, ?_, last, hl, hr.symm⟩
          · simp [List.length_zipWith, hlen]
          · intro i hi1 hi2
            have hi3 : i < outs.length := by rw [hlen]; exact hi1
            have hget := evalNodes_get sinTau (g.map GNode.output) sr g outs
              he i hi1 hi3
            rw [hget]
            simp [List.get_eq_getElem, List.getElem_zipWith]

theorem play_evaluates_against_previous_outputs_witness :
    Graph.play (fun _ => 0) gC1 4 = some (gC1', 0) ∧
    (∃ last, gC1'.getLast? = some last ∧ (0:ℚ) = last.output) :=
  ⟨gC1_play,
    (play_evaluates_against_previous_outputs (fun _ => 0) gC1 gC1' 4 0
      gC1_play).2.2⟩

/-- C5 counterexample: the graph-based 2-way interpolation operator
`LerpG::signal`, with first source reading `1`, second source reading `0`
and `alpha = 1/4`, outputs `alpha·a + (1-alpha)·b = 1/4`, not the claimed
`(1-alpha)·a + alpha·b = 3/4`: it applies the coefficients to the two
sources in the opposite roles. -/
theorem lerpG_coefficient_counterexample :
    (Module.signal (fun _ => 0) (.lerpG 0 1 (.Constant (1/4))) [1, 0]
      2).map Prod.fst = some (1/4) ∧
    ((1 - (1/4 : ℚ)) * 1 + (1/4 : ℚ) * 0 = 3/4) ∧
    ((1/4 : ℚ) ≠ 3/4) := by
  refine ⟨?_, by norm_num, by norm_num⟩
  simp [Module.signal, resolveInput]

/-- C5 amended: the library interpolation operator `LerpWave::sample`
outputs `(1-alpha)·a + alpha·b` (first source `a`, second source `b`), but
the graph operator `LerpG::signal` swaps the roles of the coefficients and
outputs `alpha·a + (1-alpha)·b`. -/
theorem lerp_operator_formulas (sinTau : ℚ → ℚ) (sr a b o1 o2 alpha : ℚ)
    (w : LerpWave) :
    w.sample a b = (1 - w.alpha) * a + w.alpha * b ∧
    (Module.signal sinTau (.lerpG 0 1 (.Constant alpha)) [o1, o2] sr).map
      Prod.fst = some (alpha * o1 + (1 - alpha) * o2) :=
  ⟨rfl, by simp [Module.signal, resolveInput]⟩

/-- C10 counterexample: a graph containing one node is not enough for
`Graph::play` to be total — `gBad`'s single `LerpG` node references the
out-of-range index `1`, so evaluation panics (models as `none`). -/
theorem play_nonempty_invalid_binding_panics :
    Graph.play (fun _ => 0) gBad 2 = none := by
  simp [Graph.play, evalNodes, Module.signal, resolveInput, gBad]

/-- C10 amended: for every non-empty graph all of whose bindings reference
in-range node indices, `Graph::play` is total and returns the last node's
(new) cached output; on the empty graph the final indexing
`self.0[self.0.len() - 1]` is out of bounds (models as `none`), so a
non-empty graph is a precondition of evaluation that the public interface
does not check. -/
theorem play_total_iff_nonempty_and_valid (sinTau : ℚ → ℚ) (sr : ℚ) :
    (∀ g : Graph, g ≠ [] →
      (∀ n ∈ g, Module.validIn g.length n.module) →
      ∃ g' last, Graph.play sinTau g sr = some (g', last.output) ∧
        g'.getLast? = some last) ∧
    Graph.play sinTau ([] : Graph) sr = none := by
  constructor
  · intro g hne hv
    have hv' : ∀ n ∈ g, Module.validIn (g.map GNode.output).length n.module := by
      simpa using hv
    obtain ⟨outs, he⟩ := evalNodes_total sinTau (g.map GNode.output) sr g hv'
    have hlen := evalNodes_length sinTau (g.map GNode.output) sr g outs he
    set g2 : Graph := List.zipWith (fun (_ : GNode) (p : ℚ × Module) =>
      GNode.mk p.2 p.1) g outs with hg2
    have hlen2 : g2.length = g.length := by
      simp [hg2, List.length_zipWith, hlen]
    have hne2 : g2 ≠ [] := by
      intro hx
      apply hne
      have : g.length = 0 := by rw [← hlen2, hx]; rfl
      exact List.length_eq_zero.mp this
    obtain ⟨last, hl⟩ := Option.isSome_iff_exists.mp
      (List.getLast?_isSome.mpr hne2)
    refine ⟨g2, last, ?_, hl⟩
    rw [Graph.play, he]
    simp [← hg2, hl]
  · rfl

theorem play_total_iff_nonempty_and_valid_witness :
    (∃ g' last, Graph.play (fun _ => 0) gW 2 = some (g', last.output) ∧
      g'.getLast? = some last) ∧
    Graph.play (fun _ => 0) ([] : Graph) 2 = none := by
  have h := play_total_iff_nonempty_and_valid (fun _ => 0) 2
  refine ⟨h.1 gW (by simp [gW]) ?_, h.2⟩
  intro n hn
  simp only [gW, List.mem_singleton] at hn
  subst hn
  exact ⟨trivial, trivial, trivial⟩

/-- C6: for every input sample and reverberator state, the output is
`wet_gain · reverberated + dry · input`, and after calling the wet and
width setters `wet_gain = wet · (width/2 + 0.5)` with `wet` holding three
times the externally supplied wet value. -/
theorem freeverb_output_and_wet_gain (f : Freeverb) (v w inp rackOut : ℚ) :
    ((f.set_wet v).set_width w).signal inp rackOut =
      ((3 * v) * (w / 2 + 1/2)) * rackOut +
        ((f.set_wet v).set_width w).dry * inp ∧
    ((f.set_wet v).set_width w).wet_gain = (3 * v) * (w / 2 + 1/2) ∧
    ((f.set_wet v).set_width w).wet = 3 * v := by
  refine ⟨?_, ?_, ?_⟩ <;>
    dsimp only [Freeverb.set_wet, Freeverb.set_width,
      Freeverb.update_wet_gains, Freeverb.signal, SCALE_WET] <;>
    ring

/-- C7 counterexample: enabling freeze through `Freeverb::set_freeze` on a
freshly constructed reverberator leaves the input gain at its initial
value `0.5` — it is not set to `0` (only `set_frozen` zeroes it). -/
theorem set_freeze_leaves_input_gain :
    (fvC7.set_freeze true).frozen = true ∧
    (fvC7.set_freeze true).input_gain = 1/2 ∧
    (fvC7.set_freeze true).input_gain ≠ 0 := by
  refine ⟨rfl, rfl, ?_⟩
  show (1 : ℚ)/2 ≠ 0
  norm_num

/-- C7 amended: enabling freeze through `set_frozen` sets every comb
filter's feedback to 1 and damping to 0 and zeroes the input gain; the
other freeze entry point, `set_freeze`, sets the combs' coefficients the
same way but leaves the input gain unchanged. -/
theorem freeze_forces_comb_coefficients (f : Freeverb) :
    ((f.set_frozen true).combs = f.combs.map (fun _ => ((1:ℚ), (0:ℚ))) ∧
     (f.set_frozen true).input_gain = 0 ∧
     (f.set_frozen true).frozen = true) ∧
    ((f.set_freeze true).combs = f.combs.map (fun _ => ((1:ℚ), (0:ℚ))) ∧
     (f.set_freeze true).input_gain = f.input_gain ∧
     (f.set_freeze true).frozen = true) := by
  simp [Freeverb.set_frozen, Freeverb.set_freeze, Freeverb.update_combs,
    setAllCombs]

/-- C8: on every per-sample evaluation of the waveguide voice that
completes, the inner delay's time is set to `1 / max(1, hz)` where `hz` is
the voice's resolved target pitch at that sample. -/
theorem waveGuide_sets_delay_time (wg : WaveGuide) (outs : List ℚ)
    (wg' : WaveGuide) (h : wg.signalStep outs = some wg') :
    ∃ hzv, resolveInput outs wg.hz = some hzv ∧
      wg'.delay_time = 1 / max 1 hzv := by
  rw [WaveGuide.signalStep] at h
  cases hb : outs.get? wg.burst with
  | none => rw [hb] at h; simp at h
  | some inp =>
      rw [hb] at h
      cases hz : resolveInput outs wg.hz with
      | none => rw [hz] at h; simp at h
      | some hzv =>
          rw [hz] at h
          simp at h
          exact ⟨hzv, rfl, by rw [← h]; simp [one_div]⟩

theorem waveGuide_sets_delay_time_witness :
    wgW.signalStep [2] = some wgW' ∧
    (∃ hzv, resolveInput [2] wgW.hz = some hzv ∧
      wgW'.delay_time = 1 / max 1 hzv) := by
  have hstep : wgW.signalStep [2] = some wgW' := by
    simp only [WaveGuide.signalStep, wgW, wgW', resolveInput, List.get?,
      Option.bind_eq_bind, Option.some_bind, Option.pure_def,
      Option.some_inj]
    norm_num [max_eq_right]
  exact ⟨hstep, waveGuide_sets_delay_time wgW [2] wgW' hstep⟩

/-- C9: the spec requires non-3-byte MIDI messages to be ignored without
panicking or mutating state, and `sv1.rs` does exactly that; but the drain
in `main.rs` reads `message[1]` before checking the length, so a 1-byte
note-on message panics the control path (modelled `none`), and a 2-byte
message mutates `model.hz` — the code contradicts the spec's
error-handling design, a slip relative to the length-checked `sv1.rs`
drain. -/
theorem midi_drain_short_message_behavior :
    (∀ (hzF : ℕ → ℚ) (st : MainState),
      mainProcessMessage hzF st [144] = none) ∧
    (∀ (hzF : ℕ → ℚ) (st : MainState),
      mainProcessMessage hzF st [144, 60] = some { st with hz := hzF 60 }) ∧
    (∀ (st : Sv1State) (msg : List ℕ), msg.length ≠ 3 →
      sv1ProcessMessage st msg = st) := by
  refine ⟨fun hzF st => rfl, fun hzF st => rfl, fun st msg h => ?_⟩
  rw [sv1ProcessMessage, if_neg h]

theorem midi_drain_short_message_behavior_witness :
    mainProcessMessage (fun _ => 440) ⟨0, []⟩ [144] = none ∧
    mainProcessMessage (fun _ => 440) ⟨0, []⟩ [144, 60] =
      some ⟨440, []⟩ ∧
    sv1ProcessMessage ⟨0, false, []⟩ [144, 60] = ⟨0, false, []⟩ := by
  have h := midi_drain_short_message_behavior
  exact ⟨h.1 (fun _ => 440) ⟨0, []⟩, h.2.1 (fun _ => 440) ⟨0, []⟩,
    h.2.2 ⟨0, false, []⟩ [144, 60] (by norm_num)⟩

end Oscen
